import Mathlib

/-!
Verification of the phishing-detection core of `fileng87/llm-phish-dector`.

The TypeScript sources under `src/lib/langchain/` are shallowly embedded:
pure functions become Lean functions, JavaScript coercions (`Number`,
`Boolean`, `String.prototype.trim`, …) are modelled explicitly, thrown
exceptions become `Except`, and the LangGraph workflow becomes an explicit
state machine driven by a fuel-bounded interpreter.  External capabilities
(the LLM provider, `JSON.parse`, the registered tools' network behaviour)
are parameters of the embedding, since they are not code of this repository.
-/

deriving instance DecidableEq for Except

namespace PhishDetect

/-! ## Data model (`src/types/phishing-detection.ts`) -/

/-- The `riskLevel` enum of `PhishingDetectionResult`. -/
inductive RiskLevel where
  | low
  | medium
  | high
deriving Repr, DecidableEq

/-- `PhishingDetectionResult` from `src/types/phishing-detection.ts`.
`isError` and `errorMessage` are optional fields in the TypeScript
interface, hence `Option` here; a result literal that omits them leaves
them `none`.  `confidenceScore` is a JS number, modelled as `ℚ`. -/
structure PhishingDetectionResult where
  isPhishing : Bool
  confidenceScore : ℚ
  suspiciousPoints : List String
  explanation : String
  riskLevel : RiskLevel
  timestamp : String
  isError : Option Bool := none
  errorMessage : Option String := none
deriving Repr, DecidableEq

/-! ## A model of JavaScript runtime values and coercions

The validators receive fields of a parsed JSON object, i.e. arbitrary
JavaScript values.  `RawValue` models the values that can come out of
`JSON.parse`. -/

inductive RawValue where
  | null
  | bool (b : Bool)
  | num (q : ℚ)
  | str (s : String)
  | arr (xs : List RawValue)
  | obj (fields : List (String × RawValue))
deriving Repr

/-- `String.prototype.trim` over a character list: whitespace stripped
from both ends. -/
def jsTrimList (l : List Char) : List Char :=
  ((l.dropWhile Char.isWhitespace).reverse.dropWhile Char.isWhitespace).reverse

/-- `s.trim()`. -/
def jsTrim (s : String) : String := (jsTrimList s.toList).asString

/-- `s.toLowerCase()` (ASCII case folding; the repository only lowercases
ASCII identifiers and risk labels, CJK characters are unaffected). -/
def jsToLower (s : String) : String := (s.toList.map Char.toLower).asString

/-- Split a character list at every occurrence of `sep`
(`String.prototype.split` with a one-character separator). -/
def splitCharList (sep : Char) : List Char → List (List Char)
  | [] => [[]]
  | c :: rest =>
    match splitCharList sep rest with
    | [] => [[]]
    | h :: t => if c = sep then [] :: h :: t else (c :: h) :: t

/-- `s.split('\n')`. -/
def jsSplitLines (s : String) : List String :=
  (splitCharList (Char.ofNat 10) s.toList).map List.asString

/-- Numeric value of a digit list, most significant first. -/
def digitsToNat (l : List Char) : Nat :=
  l.foldl (fun a c => a * 10 + (c.toNat - 48)) 0

/-- `Number(s)` for a string `s`, restricted to plain decimal literals
(optional sign, integer part, optional fraction), which is the shape the
code under verification feeds it.  `none` stands for `NaN`.  The whole
string is trimmed first and an empty string converts to `0`, as in JS. -/
def jsStringToNumber (s : String) : Option ℚ :=
  let t := jsTrimList s.toList
  if t = [] then some 0 else
  let (neg, rest) :=
    match t with
    | c :: cs =>
      if c = '-' then (true, cs)
      else if c = '+' then (false, cs)
      else (false, c :: cs)
    | [] => (false, [])
  let signed : ℤ → ℤ := fun m => if neg then -m else m
  let intPart := rest.takeWhile Char.isDigit
  let rest2 := rest.dropWhile Char.isDigit
  match rest2 with
  | [] => if intPart = [] then none else some (Rat.divInt (signed (digitsToNat intPart)) 1)
  | '.' :: frac =>
    let fracDigits := frac.takeWhile Char.isDigit
    let rest3 := frac.dropWhile Char.isDigit
    if rest3 ≠ [] then none
    else if intPart = [] ∧ fracDigits = [] then none
    else some (Rat.divInt (signed (digitsToNat (intPart ++ fracDigits)))
      ((10 : ℤ) ^ fracDigits.length))
  | _ => none

/-- `Number(v)` on a `RawValue`; `none` stands for `NaN`.  Object coercion
via `valueOf`/`toString` chains is out of scope: the repository only feeds
numbers and strings to `Number`.  `Number([])` is `0` and a one-element
array coerces through its element, as in JS. -/
def jsNumber : RawValue → Option ℚ
  | .null => some 0
  | .bool b => some (if b then 1 else 0)
  | .num q => some q
  | .str s => jsStringToNumber s
  | .arr [] => some 0
  | .arr [x] => jsNumber x
  | .arr (_ :: _ :: _) => none
  | .obj _ => none

/-- `Boolean(v)`: the JS truthiness coercion. -/
def jsBoolean : RawValue → Bool
  | .null => false
  | .bool b => b
  | .num q => q ≠ 0
  | .str s => s ≠ ""
  | .arr _ => true
  | .obj _ => true

/-- `Math.round(q)` rounds half-up towards `+∞`, i.e. `⌊q + 1/2⌋`, here
written over numerator and denominator so that the kernel can evaluate it
(`q + 1/2 = (2·num + den) / (2·den)`); `jsRound_eq_floor` below certifies
the equation. -/
def jsRound (q : ℚ) : ℤ := ⌊Rat.divInt (2 * q.num + q.den) (2 * q.den)⌋

/-- `a.isPrefixOf`-based substring scan: does `t` occur inside `s`?
Models `String.prototype.includes`. -/
def charListContains (t : List Char) : List Char → Bool
  | [] => t.isEmpty
  | c :: rest => t.isPrefixOf (c :: rest) || charListContains t rest

/-- `s.includes(t)` on strings. -/
def jsIncludes (s t : String) : Bool :=
  charListContains t.toList s.toList

/-- `s.startsWith(t)`. -/
def jsStartsWith (s t : String) : Bool :=
  t.toList.isPrefixOf s.toList

/-! ## `PhishingDetector` field validators
(`src/lib/langchain/phishing-detector.ts`)

Each `validateX` method throws on bad input; the embedding returns
`Except String` with the thrown message in the error case. -/

/-- `PhishingDetector.validateConfidenceScore`: `Number(score)`; `NaN`
throws; a value outside `[0,100]` throws; otherwise
`Math.round(Math.max(0, Math.min(100, numScore)))`. -/
def validateConfidenceScore (score : RawValue) : Except String ℤ :=
  match jsNumber score with
  | none => .error "信心分數必須是數字"
  | some n =>
    if n < 0 ∨ n > 100 then .error "信心分數必須在 0-100 之間"
    else .ok (jsRound (max 0 (min 100 n)))

/-- `PhishingDetector.validateRiskLevel`: lowercase, exact match against
`low|medium|high`, then substring fallbacks for localized synonyms;
anything else throws. -/
def validateRiskLevel (level : RawValue) : Except String RiskLevel :=
  match level with
  | .str s =>
    let lower := jsToLower s
    if lower = "low" ∨ lower = "medium" ∨ lower = "high" then
      .ok (if lower = "low" then .low else if lower = "medium" then .medium else .high)
    else if jsIncludes lower "低" || jsIncludes lower "low" then .ok .low
    else if jsIncludes lower "中" || jsIncludes lower "medium" then .ok .medium
    else if jsIncludes lower "高" || jsIncludes lower "high" then .ok .high
    else .error "風險等級必須是 low、medium 或 high"
  | _ => .error "風險等級必須是 low、medium 或 high"

/-- `PhishingDetector.validateSuspiciousPoints`.  A string is split on
newlines, empty lines dropped, each line trimmed — with no cap.  An array
keeps its non-empty-string elements trimmed, capped at 10, and an empty
outcome becomes the sentinel entry.  Anything else throws. -/
def validateSuspiciousPoints (points : RawValue) : Except String (List String) :=
  match points with
  | .str s =>
    let lines := (jsSplitLines s).filter (fun line => jsTrim line ≠ "")
    if lines ≠ [] then .ok (lines.map jsTrim)
    else .ok [jsTrim s]
  | .arr xs =>
    let validPoints :=
      ((xs.filterMap fun p =>
        match p with
        | .str t => if jsTrim t ≠ "" then some (jsTrim t) else none
        | _ => none)).take 10
    if validPoints = [] then .ok ["未發現明顯可疑點"]
    else .ok validPoints
  | _ => .error "可疑點必須是字串陣列"

/-- `PhishingDetector.validateExplanation`: non-string or empty-after-trim
throws; text longer than 2000 characters is truncated with an ellipsis. -/
def validateExplanation (explanation : RawValue) : Except String String :=
  match explanation with
  | .str s =>
    let trimmed := jsTrim s
    if trimmed = "" then .error "解釋不能為空"
    else if trimmed.toList.length > 2000 then
      .ok ((trimmed.toList.take 2000).asString ++ "...")
    else .ok trimmed
  | _ => .error "解釋必須是字串"

/-- `PhishingDetector.createErrorResult`: the conservative error verdict
(the variant in `phishing-detector.ts`, which carries no `isError` flag). -/
def createErrorResult (now message : String) : PhishingDetectionResult :=
  { isPhishing := false
    confidenceScore := 0
    suspiciousPoints := ["錯誤: " ++ message]
    explanation := "分析過程中發生錯誤: " ++ message
    riskLevel := .low
    timestamp := now }

/-- `PhishingDetector.analyzeEmail`, input guard.  The body after the
guard (tool workflow or `analyzeWithoutTools`) is only reached for a
non-empty e-mail, so it is abstracted as a continuation `rest`; the second
component of the returned pair counts model invocations performed. -/
def analyzeEmail (rest : Unit → PhishingDetectionResult × ℕ)
    (now emailContent : String) : PhishingDetectionResult × ℕ :=
  if emailContent = "" ∨ jsTrim emailContent = "" then
    (createErrorResult now "郵件內容不能為空", 0)
  else rest ()

/-! ## `ModelFactory` configuration validation
(`src/lib/langchain/model-factory.ts`) -/

/-- `ModelConfig` from `model-factory.ts`; the temperature is a JS number,
modelled as `ℚ`. -/
structure ModelConfig where
  provider : String
  model : String
  temperature : ℚ
  apiKey : String

/-- The `{valid, error?}` object returned by the validators. -/
structure ConfigValidation where
  valid : Bool
  error : Option String := none
deriving Repr, DecidableEq

def supportedProviders : List String := ["openai", "anthropic", "google"]

/-- `ModelFactory.validateApiKeyFormat`. -/
def validateApiKeyFormat (provider apiKey : String) : ConfigValidation :=
  if provider = "openai" then
    if jsStartsWith apiKey "sk-" then ⟨true, none⟩
    else ⟨false, some "OpenAI API 金鑰應以 \"sk-\" 開頭"⟩
  else if provider = "anthropic" then
    if jsStartsWith apiKey "sk-ant-" then ⟨true, none⟩
    else ⟨false, some "Anthropic API 金鑰應以 \"sk-ant-\" 開頭"⟩
  else if provider = "google" then
    if apiKey.toList.length < 10 then ⟨false, some "Google API 金鑰長度不足"⟩
    else ⟨true, none⟩
  else ⟨true, none⟩

/-- `ModelFactory.validateConfig`: the checks in source order. -/
def validateConfig (config : ModelConfig) : ConfigValidation :=
  if config.provider = "" then ⟨false, some "供應商不能為空"⟩
  else if config.model = "" ∨ jsTrim config.model = "" then
    ⟨false, some "模型名稱不能為空"⟩
  else if config.apiKey = "" ∨ jsTrim config.apiKey = "" then
    ⟨false, some "API 金鑰不能為空"⟩
  else if config.temperature < 0 ∨ config.temperature > 2 then
    ⟨false, some "溫度參數必須在 0-2 之間"⟩
  else if config.provider ∉ supportedProviders then
    ⟨false, some ("不支援的供應商: " ++ config.provider)⟩
  else validateApiKeyFormat config.provider config.apiKey

/-! ## The URL analyzer tool (`urlAnalyzerTool.func`) -/

/-- The components of a parsed URL that the tool looks at:
`URL.hostname`, `URL.pathname` and the `searchParams` entries. -/
structure ParsedUrl where
  host : String
  pathname : String
  queryParams : List (String × String)
deriving Repr, DecidableEq

/-- The JS `URL` constructor, modelled for `http`/`https` URLs of the
plain `scheme://host[/path][?query]` shape (no userinfo, no fragment,
no percent-decoding) — the shapes the analysed mails contain.  Everything
else is `none`, which the tool reports as an unparsable URL. -/
def parseUrl (url : String) : Option ParsedUrl :=
  let chars := url.toList
  let afterScheme : Option (List Char) :=
    if jsStartsWith url "http://" then some (chars.drop 7)
    else if jsStartsWith url "https://" then some (chars.drop 8)
    else none
  match afterScheme with
  | none => none
  | some rest =>
    let hostPort := rest.takeWhile (fun c => c ≠ '/' ∧ c ≠ '?')
    let afterHost := rest.dropWhile (fun c => c ≠ '/' ∧ c ≠ '?')
    if hostPort = [] then none
    else
      let host := (hostPort.takeWhile (fun c => c ≠ ':')).map Char.toLower
      let path := afterHost.takeWhile (fun c => c ≠ '?')
      let query := (afterHost.dropWhile (fun c => c ≠ '?')).drop 1
      let params := (splitCharList '&' query).filterMap fun kv =>
        if kv = [] then none
        else
          let k := kv.takeWhile (fun c => c ≠ '=')
          let v := (kv.dropWhile (fun c => c ≠ '=')).drop 1
          some (k.asString, v.asString)
      some ⟨host.asString, (if path = [] then "/" else path.asString), params⟩

/-- The regex `/^\d+\.\d+\.\d+\.\d+$/`: four non-empty all-digit groups
separated by dots. -/
def isBareIPv4 (domain : String) : Bool :=
  let parts := splitCharList '.' domain.toList
  parts.length = 4 && parts.all fun p => !p.isEmpty && p.all Char.isDigit

def phishingKeywords : List String :=
  ["secure", "verify", "update", "confirm", "login", "account"]

def urlShorteners : List String :=
  ["bit.ly", "tinyurl.com", "t.co", "goo.gl", "ow.ly"]

/-- One entry of the URL analyzer's `results` array. -/
structure UrlAnalysis where
  url : String
  domain : String
  riskLevel : RiskLevel
  suspiciousFeatures : List String
  analysis : String
deriving Repr, DecidableEq

/-- The tool's rating rule: `high` above 2 features, `medium` for 1–2,
`low` for 0. -/
def riskFromFeatureCount (n : ℕ) : RiskLevel :=
  if n > 2 then .high else if n > 0 then .medium else .low

/-- The per-URL body of `urlAnalyzerTool.func`, features pushed in source
order; an unparsable URL is `high` with the dedicated feature flag. -/
def analyzeSingleUrl (url : String) : UrlAnalysis :=
  match parseUrl url with
  | none =>
    ⟨url, "invalid", .high, ["無效的 URL 格式"], "URL 格式無效: 未知錯誤"⟩
  | some u =>
    let domain := u.host
    let path := u.pathname
    let suspiciousParams := u.queryParams.filterMap fun kv =>
      if jsIncludes (jsToLower kv.1) "redirect" || jsIncludes (jsToLower kv.1) "url" then
        some (kv.1 ++ "=" ++ kv.2)
      else none
    let suspiciousFeatures :=
      (if domain.toList.length > 50 then ["域名過長"] else []) ++
      (if isBareIPv4 domain then ["使用 IP 地址而非域名"] else []) ++
      (if (splitCharList '.' domain.toList).length > 4 then ["子域名過多"] else []) ++
      (if phishingKeywords.any (fun keyword =>
          jsIncludes (jsToLower domain) keyword || jsIncludes (jsToLower path) keyword) then
        ["包含常見釣魚關鍵字"] else []) ++
      (if urlShorteners.any (fun shortener => jsIncludes domain shortener) then
        ["使用 URL 縮短服務"] else []) ++
      (if suspiciousParams ≠ [] then
        ["可疑重定向參數: " ++ String.intercalate ", " suspiciousParams] else [])
    ⟨url, domain,
      riskFromFeatureCount suspiciousFeatures.length,
      suspiciousFeatures,
      "域名: " ++ domain ++ ", 路徑: " ++ path ++
        ", 可疑特徵數: " ++ toString suspiciousFeatures.length⟩

/-- The summary object `urlAnalyzerTool.func` returns. -/
structure UrlToolOutput where
  totalUrls : ℕ
  highRiskUrls : ℕ
  mediumRiskUrls : ℕ
  lowRiskUrls : ℕ
  results : List UrlAnalysis
deriving Repr, DecidableEq

/-- `urlAnalyzerTool.func` over a URL list. -/
def urlAnalyzerFunc (urls : List String) : UrlToolOutput :=
  let results := urls.map analyzeSingleUrl
  ⟨urls.length,
   (results.filter fun r => r.riskLevel = .high).length,
   (results.filter fun r => r.riskLevel = .medium).length,
   (results.filter fun r => r.riskLevel = .low).length,
   results⟩

/-! ## `PhishingAnalysisWorkflow`
(`src/lib/langchain/phishing-workflow.ts`, the five-node variant with
`initial_analysis / tool_calling / continue_analysis / final_analysis`)

External capabilities — the chat model, `JsonOutputParser.parse`,
`JSON.parse` and the registered tools' behaviour — are fields of `WEnv`.
The model is a function from the invocation index to the response of that
invocation, which suffices for the claims about invocation counts and
termination. -/

/-- Modelled from the spec: the system prompt constant from the
repository's `prompts.ts`, which is not part of the provided sources; its
exact wording influences none of the claims. -/
def PHISHING_DETECTION_SYSTEM_PROMPT : String :=
  "你是一個專業的釣魚郵件偵測專家。"

/-- Modelled from the spec: `generateAnalysisPrompt` from the missing
`prompts.ts` — a user prompt embedding the e-mail content. -/
def generateAnalysisPrompt (emailContent : String) : String :=
  "請分析以下郵件內容：\n" ++ emailContent

/-- Modelled from the spec: `generateToolAnalysisPrompt` from the missing
`prompts.ts` — a prompt embedding the accumulated tool results. -/
def generateToolAnalysisPrompt (toolResults : List (String × String)) : String :=
  "請根據以下工具分析結果產生最終判斷：\n" ++
    String.intercalate "\n\n" (toolResults.map fun p => "### " ++ p.1 ++ "\n" ++ p.2)

/-- A tool call requested by the model: `{name, args, id?}`.  The
arguments are kept as their serialized form; only the name and id are
inspected by the orchestrator. -/
structure ToolCall where
  name : String
  args : String
  id : Option String
deriving Repr, DecidableEq

/-- A chat-model response: text content plus requested tool calls. -/
structure ModelResponse where
  content : String
  toolCalls : List ToolCall
deriving Repr, DecidableEq

/-- The message ledger entries (`SystemMessage`, `HumanMessage`,
`AIMessage`, `ToolMessage`). -/
inductive WMessage where
  | system (content : String)
  | human (content : String)
  | ai (content : String) (toolCalls : List ToolCall)
  | tool (content : String) (toolCallId : String)
deriving Repr, DecidableEq

/-- The `currentStep` enum of `WorkflowState`. -/
inductive WStep where
  | initial_analysis
  | tool_calling
  | continue_analysis
  | final_analysis
  | completed
deriving Repr, DecidableEq

/-- `WorkflowState` from `phishing-workflow.ts`. -/
structure WState where
  emailContent : String
  messages : List WMessage
  toolResults : List (String × String)
  finalResult : Option PhishingDetectionResult
  useTools : Bool
  currentStep : WStep
  currentStepDescription : Option String
  toolCallCount : ℕ
deriving Repr, DecidableEq

/-- The two JSON-parsing capabilities `parseResult` layers:
`JsonOutputParser.parse` (a langchain library call) and `JSON.parse`.
`none` models a thrown parse exception. -/
structure ParseEnv where
  jsonOutputParse : String → Option RawValue
  jsonParse : String → Option RawValue

/-- The environment of one workflow run: the provider model (response to
the k-th invocation), the registered tools (name to behaviour, `Except`
modelling a thrown exception), the JSON parsers, and the clock. -/
structure WEnv where
  respond : ℕ → ModelResponse
  tools : List (String × (String → Except String String))
  parseEnv : ParseEnv
  now : String

/-- The regex `content.match(/\x7b[\s\S]*\x7d/)`: greedy — from the first
opening brace to the last closing brace, if the latter comes after the
former. -/
def extractBraces (content : String) : Option String :=
  let afterOpen := content.toList.dropWhile fun c => c ≠ Char.ofNat 123
  match afterOpen with
  | [] => none
  | _ :: _ =>
    let fromCloseRev := afterOpen.reverse.dropWhile fun c => c ≠ Char.ofNat 125
    match fromCloseRev with
    | [] => none
    | _ :: _ => some fromCloseRev.reverse.asString

/-- `String(v)` rendering.  The claims only observe it on strings and
booleans; JS float formatting for non-integral numbers is out of scope. -/
def rawToDisplayString : RawValue → String
  | .str s => s
  | .bool b => if b then "true" else "false"
  | .num q => if q.den = 1 then toString q.num else toString q.num ++ "/" ++ toString q.den
  | .null => "null"
  | .arr _ => "[array]"
  | .obj _ => "[object Object]"

/-- JS property access `data.field` on the parsed value (`undefined` on a
non-object or a missing key is conflated with `null`, which the coercions
used here do not distinguish). -/
def getField (v : RawValue) (name : String) : RawValue :=
  match v with
  | .obj fields =>
    match fields.lookup name with
    | some x => x
    | none => .null
  | _ => .null

/-- `Number(x) || 0`: `NaN` (and `0` itself) collapse to `0`. -/
def jsNumberOrZero (v : RawValue) : ℚ :=
  match jsNumber v with
  | none => 0
  | some q => q

/-- `PhishingAnalysisWorkflow.validateAndFormatResult`: lenient coercion
with defaults, no exceptions. -/
def wfValidateAndFormatResult (now : String) (raw : RawValue) : PhishingDetectionResult :=
  { isPhishing := jsBoolean (getField raw "isPhishing")
    confidenceScore := max 0 (min 100 (jsNumberOrZero (getField raw "confidenceScore")))
    suspiciousPoints :=
      match getField raw "suspiciousPoints" with
      | .arr xs => (xs.take 10).map rawToDisplayString
      | _ => []
    explanation :=
      let e := getField raw "explanation"
      if jsBoolean e then rawToDisplayString e else "無詳細說明"
    riskLevel :=
      match getField raw "riskLevel" with
      | .str s =>
        if s = "low" then .low
        else if s = "medium" then .medium
        else if s = "high" then .high
        else .medium
      | _ => .medium
    timestamp := now }

/-- The fallback verdict `parseResult` returns when every parse layer
fails.  Note: no `isError` field is set. -/
def parseFallbackResult (now : String) : PhishingDetectionResult :=
  { isPhishing := true
    confidenceScore := 50
    suspiciousPoints := ["模型回應格式無效，無法完整解析"]
    explanation := "由於模型回應格式問題，無法提供詳細分析。建議手動檢查郵件內容。"
    riskLevel := .medium
    timestamp := now }

/-- `PhishingAnalysisWorkflow.parseResult`: direct parse, then
brace-extraction parse, then the fallback verdict; never throws. -/
def parseResult (env : ParseEnv) (now content : String) : PhishingDetectionResult :=
  match env.jsonOutputParse content with
  | some raw => wfValidateAndFormatResult now raw
  | none =>
    match extractBraces content with
    | some jsonStr =>
      match env.jsonParse jsonStr with
      | some raw => wfValidateAndFormatResult now raw
      | none => parseFallbackResult now
    | none => parseFallbackResult now

/-- `messages[messages.length - 1] as AIMessage` followed by
`lastMessage.tool_calls`: the requested calls of the last message when it
is an `AIMessage`, nothing otherwise. -/
def lastToolCalls (msgs : List WMessage) : List ToolCall :=
  match msgs.getLast? with
  | some (.ai _ tcs) => tcs
  | _ => []

/-- `lastMessage.content.toString()` of the last ledger entry. -/
def lastMessageContent (msgs : List WMessage) : String :=
  match msgs.getLast? with
  | some (.system c) => c
  | some (.human c) => c
  | some (.ai c _) => c
  | some (.tool c _) => c
  | none => ""

/-- The ledger entry for one executed tool invocation: the tool's output
on success, the translated error text when the tool throws (the `catch`
branch of `toolCalling`); the id falls back to the tool name
(`toolCall.id || toolCall.name`). -/
def toolInvokeMessage (tc : ToolCall) : Except String String → WMessage
  | .ok result => .tool result (tc.id.getD tc.name)
  | .error msg => .tool ("工具 " ++ tc.name ++ " 執行失敗: " ++ msg) (tc.id.getD tc.name)

/-- The ledger entry produced for one requested tool call: dispatch via
`getToolByName`, with the not-found message when the lookup fails. -/
def toolCallMessage (env : WEnv) (tc : ToolCall) : WMessage :=
  match env.tools.lookup tc.name with
  | some invokeTool => toolInvokeMessage tc (invokeTool tc.args)
  | none => .tool ("工具 " ++ tc.name ++ " 不存在") (tc.id.getD tc.name)

/-- JS object assignment `toolResults[name] = result` on the accumulator
map (only performed when the tool ran successfully). -/
def recordSet (m : List (String × String)) (key val : String) : List (String × String) :=
  if m.any (fun p => p.1 = key) then
    m.map fun p => if p.1 = key then (key, val) else p
  else m ++ [(key, val)]

/-- The `toolResults` update for one requested call. -/
def toolCallResultUpdate (env : WEnv) (acc : List (String × String))
    (tc : ToolCall) : List (String × String) :=
  match env.tools.lookup tc.name with
  | some invokeTool =>
    match invokeTool tc.args with
    | .ok result => recordSet acc tc.name result
    | .error _ => acc
  | none => acc

/-- `PhishingAnalysisWorkflow.initialAnalysis`, paired with the next
model-invocation index. -/
def initialAnalysisNode (env : WEnv) (s : WState) (k : ℕ) : WState × ℕ :=
  let messages := [WMessage.system PHISHING_DETECTION_SYSTEM_PROMPT,
                   WMessage.human (generateAnalysisPrompt s.emailContent)]
  let response := env.respond k
  if s.useTools = true ∧ response.toolCalls ≠ [] then
    ({ s with
        messages := messages ++ [.ai response.content response.toolCalls]
        currentStep := .tool_calling
        currentStepDescription :=
          some ("正在執行 " ++ toString response.toolCalls.length ++ " 個分析工具")
        toolCallCount := s.toolCallCount + 1 }, k + 1)
  else
    ({ s with
        messages := messages ++ [.ai response.content response.toolCalls]
        finalResult := some (parseResult env.parseEnv env.now response.content)
        currentStep := .completed
        currentStepDescription := some "分析完成" }, k + 1)

/-- `PhishingAnalysisWorkflow.toolCalling`: every requested call yields
exactly one tool-role ledger entry, in request order, and a failing or
unknown tool never escapes the node. -/
def toolCallingNode (env : WEnv) (s : WState) : WState :=
  let tcs := lastToolCalls s.messages
  { s with
      messages := s.messages ++ tcs.map (toolCallMessage env)
      toolResults := tcs.foldl (toolCallResultUpdate env) s.toolResults
      currentStep := .continue_analysis
      currentStepDescription := some "正在評估是否需要更多工具分析" }

/-- The `continuePrompt` template of `continueAnalysis`. -/
def continuePromptText (toolResults : List (String × String)) : String :=
  "基於目前已收集的資訊，請評估是否需要使用更多工具進行深入分析。\n\n已執行的工具結果：\n" ++
  String.intercalate "\n\n" (toolResults.map fun p => "### " ++ p.1 ++ "\n" ++ p.2) ++
  "\n\n如果需要使用更多工具，請調用相應的工具。\n如果已收集足夠資訊，請回應 \"ANALYSIS_COMPLETE\" 表示可以進行最終分析。"

/-- `PhishingAnalysisWorkflow.continueAnalysis`. -/
def continueAnalysisNode (env : WEnv) (s : WState) (k : ℕ) : WState × ℕ :=
  let messages := s.messages ++ [WMessage.human (continuePromptText s.toolResults)]
  let response := env.respond k
  if response.toolCalls ≠ [] then
    ({ s with
        messages := messages ++ [.ai response.content response.toolCalls]
        currentStep := .tool_calling
        currentStepDescription :=
          some ("正在執行額外的 " ++ toString response.toolCalls.length ++ " 個分析工具")
        toolCallCount := s.toolCallCount + 1 }, k + 1)
  else
    ({ s with
        messages := messages ++ [.ai response.content response.toolCalls]
        currentStep := .final_analysis
        currentStepDescription := some "正在整合所有分析結果" }, k + 1)

/-- `messages.filter(ai).pop()`: content of the last `AIMessage`. -/
def lastAiContent (msgs : List WMessage) : Option String :=
  (msgs.filterMap fun m =>
    match m with
    | .ai c _ => some c
    | _ => none).getLast?

/-- The hard-coded verdict `finalAnalysis` returns when it has no tool
results and cannot recover an initial answer. -/
def technicalFallbackResult (now : String) : PhishingDetectionResult :=
  { isPhishing := true
    confidenceScore := 50
    suspiciousPoints := ["無法完成完整分析"]
    explanation := "由於技術問題，無法提供詳細分析。建議手動檢查郵件內容。"
    riskLevel := .medium
    timestamp := now }

/-- `PhishingAnalysisWorkflow.finalAnalysis`: with no collected tool
results the last assistant answer is re-parsed without a model call;
otherwise one more model invocation produces the final verdict. -/
def finalAnalysisNode (env : WEnv) (s : WState) (k : ℕ) : WState × ℕ :=
  if s.toolResults = [] then
    match lastAiContent s.messages with
    | some content =>
      ({ s with
          finalResult := some (parseResult env.parseEnv env.now content)
          currentStep := .completed
          currentStepDescription := some "分析完成" }, k)
    | none =>
      ({ s with
          finalResult := some (technicalFallbackResult env.now)
          currentStep := .completed
          currentStepDescription := some "分析完成" }, k)
  else
    let finalMessages := s.messages ++ [WMessage.human (generateToolAnalysisPrompt s.toolResults)]
    let response := env.respond k
    ({ s with
        messages := finalMessages ++ [.ai response.content response.toolCalls]
        finalResult := some (parseResult env.parseEnv env.now response.content)
        currentStep := .completed
        currentStepDescription := some "分析完成" }, k + 1)

/-- `PhishingAnalysisWorkflow.shouldUseTool` (`true` = `use_tools`). -/
def shouldUseTool (s : WState) : Bool :=
  s.useTools && !(lastToolCalls s.messages).isEmpty

/-- `PhishingAnalysisWorkflow.shouldContinueWithTools`
(`true` = `continue_tools`): the round counter has the hard cap
`maxToolCalls = 5`; at or above it the decision is `finish_analysis`
regardless of the last message.  Below the cap, new tool calls continue
the loop; otherwise both the `ANALYSIS_COMPLETE` marker branch and the
default branch finish. -/
def shouldContinueWithTools (s : WState) : Bool :=
  if 5 ≤ s.toolCallCount then false
  else if !(lastToolCalls s.messages).isEmpty then true
  else
    let content := jsToLower (lastMessageContent s.messages)
    if jsIncludes content "analysis_complete" || jsIncludes content "分析完成" then false
    else false

/-- The compiled graph's nodes (`done` standing for `END`). -/
inductive GNode where
  | initial
  | tools
  | continueA
  | final
  | done
deriving Repr, DecidableEq

/-- The edges of `createWorkflow(useTools)`: with tools, conditional
edges after `initial_analysis` and `continue_analysis`; without tools the
graph is `initial_analysis → END`. -/
def routeAfter (graphUseTools : Bool) (n : GNode) (s : WState) : GNode :=
  match n with
  | .initial =>
    if graphUseTools then (if shouldUseTool s then .tools else .final) else .done
  | .tools => .continueA
  | .continueA => if shouldContinueWithTools s then .tools else .final
  | .final => .done
  | .done => .done

/-- Execute one graph node. -/
def runNode (env : WEnv) (n : GNode) (s : WState) (k : ℕ) : WState × ℕ :=
  match n with
  | .initial => initialAnalysisNode env s k
  | .tools => (toolCallingNode env s, k)
  | .continueA => continueAnalysisNode env s k
  | .final => finalAnalysisNode env s k
  | .done => (s, k)

/-- Outcome of a graph run: final state, number of model invocations,
and the nodes executed in order. -/
structure RunResult where
  state : WState
  invocations : ℕ
  visited : List GNode
deriving Repr

/-- Fuel-bounded interpreter of the compiled graph (the LangGraph
`recursionLimit` analogue). -/
def runGraphAux (env : WEnv) (graphUseTools : Bool) :
    ℕ → GNode → WState → ℕ → List GNode → RunResult
  | 0, _, s, k, vis => ⟨s, k, vis⟩
  | fuel + 1, n, s, k, vis =>
    match n with
    | .done => ⟨s, k, vis⟩
    | _ =>
      let r := runNode env n s k
      runGraphAux env graphUseTools fuel (routeAfter graphUseTools n r.1) r.1 r.2 (vis ++ [n])

/-- The initial state built by `PhishingAnalysisWorkflow.analyze`. -/
def initialWState (emailContent : String) (useTools : Bool) : WState :=
  { emailContent := emailContent
    messages := []
    toolResults := []
    finalResult := none
    useTools := useTools
    currentStep := .initial_analysis
    currentStepDescription := none
    toolCallCount := 0 }

/-- `PhishingAnalysisWorkflow.analyze`: run the compiled graph from the
initial state.  `graphUseTools` is the constructor's `useTools` argument
(it shapes the graph); the second `useTools` is the argument of `analyze`
(it lands in the state).  Fuel 20 exceeds the longest possible path. -/
def analyzeWorkflow (env : WEnv) (graphUseTools : Bool) (emailContent : String)
    (useTools : Bool) : RunResult :=
  runGraphAux env graphUseTools 20 .initial (initialWState emailContent useTools) 0 []

/-! ## Concrete environments for evaluating the machine on closed inputs -/

/-- A parse environment in which both JSON layers fail (as
`JsonOutputParser.parse` and `JSON.parse` do on non-JSON prose). -/
def failingParseEnv : ParseEnv := ⟨fun _ => none, fun _ => none⟩

/-- A model that answers plain prose with no tool calls, with no tools
registered. -/
def proseModelEnv : WEnv :=
  { respond := fun _ => ⟨"這封郵件看起來像釣魚郵件。", []⟩
    tools := []
    parseEnv := failingParseEnv
    now := "2024-01-01T00:00:00.000Z" }

/-- A model that requests the same tool call on every invocation, with a
tool registry in which that tool succeeds. -/
def greedyToolModelEnv : WEnv :=
  { respond := fun _ => ⟨"需要更多資料", [⟨"url_analyzer", "args", some "call1"⟩]⟩
    tools := [("url_analyzer", fun _ => .ok "tool output")]
    parseEnv := failingParseEnv
    now := "2024-01-01T00:00:00.000Z" }

/-! ## Helper lemmas -/

theorem jsRound_eq_floor (q : ℚ) : jsRound q = ⌊q + 1 / 2⌋ := by
  have hden : ((q.den : ℚ)) ≠ 0 := by exact_mod_cast q.den_nz
  have hnum : (q.num : ℚ) = q * (q.den : ℚ) := (div_eq_iff hden).mp (Rat.num_div_den q)
  have h2 : (2 : ℚ) * (q.den : ℚ) ≠ 0 := mul_ne_zero two_ne_zero hden
  unfold jsRound
  congr 1
  rw [Rat.divInt_eq_div]
  push_cast
  rw [hnum, div_eq_iff h2]
  ring

theorem jsRound_nonneg_of (q : ℚ) (h : 0 ≤ q) : 0 ≤ jsRound q := by
  rw [jsRound_eq_floor]
  have : (0 : ℚ) ≤ q + 1 / 2 := by linarith
  exact_mod_cast Int.le_floor.mpr (by exact_mod_cast this)

theorem jsRound_le_of (q : ℚ) (h : q ≤ 100) : jsRound q ≤ 100 := by
  rw [jsRound_eq_floor]
  have h2 : q + 1 / 2 < ((101 : ℤ) : ℚ) := by push_cast; linarith
  have := Int.floor_lt.mpr h2
  omega

theorem isEmpty_false_of_ne_nil {α : Type} {l : List α} (h : l ≠ []) :
    l.isEmpty = false := by
  cases l with
  | nil => exact absurd rfl h
  | cons a t => rfl

theorem lastToolCalls_concat (l : List WMessage) (c : String) (tcs : List ToolCall) :
    lastToolCalls (l ++ [.ai c tcs]) = tcs := by
  unfold lastToolCalls
  rw [List.getLast?_concat]

theorem lastAiContent_concat (l : List WMessage) (c : String) (tcs : List ToolCall) :
    lastAiContent (l ++ [.ai c tcs]) = some c := by
  unfold lastAiContent
  rw [List.filterMap_append]
  simp only [List.filterMap_cons, List.filterMap_nil]
  rw [List.getLast?_concat]

theorem validateApiKeyFormat_valid_iff (p k : String) :
    (validateApiKeyFormat p k).valid = true ↔
      ((p = "openai" → jsStartsWith k "sk-" = true) ∧
       (p = "anthropic" → jsStartsWith k "sk-ant-" = true) ∧
       (p = "google" → 10 ≤ k.toList.length)) := by
  constructor
  · intro hv
    refine ⟨?_, ?_, ?_⟩
    · intro hp
      subst hp
      unfold validateApiKeyFormat at hv
      rw [if_pos rfl] at hv
      by_cases hk : jsStartsWith k "sk-" = true
      · exact hk
      · rw [if_neg hk] at hv
        exact absurd hv (by decide)
    · intro hp
      subst hp
      unfold validateApiKeyFormat at hv
      rw [if_neg (by decide), if_pos rfl] at hv
      by_cases hk : jsStartsWith k "sk-ant-" = true
      · exact hk
      · rw [if_neg hk] at hv
        exact absurd hv (by decide)
    · intro hp
      subst hp
      unfold validateApiKeyFormat at hv
      rw [if_neg (by decide), if_neg (by decide), if_pos rfl] at hv
      by_cases hk : k.toList.length < 10
      · rw [if_pos hk] at hv
        exact absurd hv (by decide)
      · omega
  · intro hc
    unfold validateApiKeyFormat
    by_cases h1 : p = "openai"
    · rw [if_pos h1, if_pos (hc.1 h1)]
    · rw [if_neg h1]
      by_cases h3 : p = "anthropic"
      · rw [if_pos h3, if_pos (hc.2.1 h3)]
      · rw [if_neg h3]
        by_cases h5 : p = "google"
        · rw [if_pos h5, if_neg (by have := hc.2.2 h5; omega)]
        · rw [if_neg h5]

theorem validateApiKeyFormat_error_of_invalid (p k : String)
    (h : (validateApiKeyFormat p k).valid = false) :
    (validateApiKeyFormat p k).error ≠ none := by
  unfold validateApiKeyFormat at h ⊢
  split_ifs at h ⊢ <;> simp_all

/-! ## Claim theorems -/

/-- C3 counterexample: the claim says a `confidenceScore` of `-10` is
clamped to `0`, but `PhishingDetector.validateConfidenceScore` rejects any
value outside `[0,100]` as a validation failure. -/
theorem confidenceScore_clamping_counterexample :
    validateConfidenceScore (.num (-10)) = .error "信心分數必須在 0-100 之間" ∧
    validateConfidenceScore (.num (-10)) ≠ .ok 0 := by
  constructor
  · decide
  · decide

/-- C3 (amended): `validateConfidenceScore` coerces via `Number`; a
numeric value inside `[0,100]` is rounded to the nearest integer (so
`"87.6" ↦ 88`) and the result is an integer in `[0,100]`; values outside
`[0,100]` (such as `-10` and `150`) and non-numeric input are validation
failures rather than being clamped.  The workflow's separate lenient
formatter `validateAndFormatResult` is the place that clamps
(`-10 ↦ 0`, `150 ↦ 100`) — without rounding, so `"87.6" ↦ 87.6` there. -/
theorem confidenceScore_validation_behavior :
    (validateConfidenceScore (.str "87.6") = .ok 88 ∧
     validateConfidenceScore (.num 150) = .error "信心分數必須在 0-100 之間" ∧
     validateConfidenceScore (.str "abc") = .error "信心分數必須是數字") ∧
    (∀ v q, jsNumber v = some q → 0 ≤ q → q ≤ 100 →
      validateConfidenceScore v = .ok (jsRound q) ∧
      0 ≤ jsRound q ∧ jsRound q ≤ 100) ∧
    (∀ v q, jsNumber v = some q → q < 0 ∨ 100 < q →
      validateConfidenceScore v = .error "信心分數必須在 0-100 之間") ∧
    (∀ v, jsNumber v = none → validateConfidenceScore v = .error "信心分數必須是數字") ∧
    ((wfValidateAndFormatResult "T" (.obj [("confidenceScore", .num (-10))])).confidenceScore = 0 ∧
     (wfValidateAndFormatResult "T" (.obj [("confidenceScore", .num 150)])).confidenceScore = 100 ∧
     (wfValidateAndFormatResult "T" (.obj [("confidenceScore", .str "87.6")])).confidenceScore =
       Rat.divInt 876 10) := by
  refine ⟨⟨by decide, by decide, by decide⟩, ?_, ?_, ?_, by decide, by decide, by decide⟩
  · intro v q hv h0 h100
    simp only [validateConfidenceScore, hv]
    rw [if_neg (by push_neg; exact ⟨h0, h100⟩)]
    rw [min_eq_right h100, max_eq_right h0]
    exact ⟨rfl, jsRound_nonneg_of q h0, jsRound_le_of q h100⟩
  · intro v q hv hout
    simp only [validateConfidenceScore, hv]
    rw [if_pos hout]
  · intro v hv
    simp only [validateConfidenceScore, hv]

/-- C3 witness: the amended in-range case applied at `"87.6"`. -/
theorem confidenceScore_validation_behavior_witness :
    validateConfidenceScore (.str "87.6") = .ok (jsRound (Rat.divInt 876 10)) ∧
    0 ≤ jsRound (Rat.divInt 876 10) ∧ jsRound (Rat.divInt 876 10) ≤ 100 :=
  confidenceScore_validation_behavior.2.1 (.str "87.6") (Rat.divInt 876 10)
    (by decide) (by decide) (by decide)

/-- C4 counterexample: the claim rates
`http://203.0.113.5/verify-login` as `high` risk, but the tool collects
exactly two features there (bare IPv4 literal; phishing keyword) and its
rule `high ⇔ more than 2 flags` therefore yields `medium`. -/
theorem urlAnalyzer_first_url_counterexample :
    (analyzeSingleUrl "http://203.0.113.5/verify-login").riskLevel = .medium ∧
    (analyzeSingleUrl "http://203.0.113.5/verify-login").riskLevel ≠ .high ∧
    (analyzeSingleUrl "http://203.0.113.5/verify-login").suspiciousFeatures =
      ["使用 IP 地址而非域名", "包含常見釣魚關鍵字"] := by
  refine ⟨by decide, by decide, by decide⟩

/-- C4 (amended): on
`["http://203.0.113.5/verify-login", "https://bit.ly/xyz"]` the URL
analyzer rates **both** URLs `medium`: the first collects exactly the two
flags "bare IPv4 literal" and "phishing keyword" (1–2 flags ⇒ medium
under the rule `high` iff more than 2 flags), the second exactly the one
flag "URL shortener". -/
theorem urlAnalyzer_expected_ratings :
    urlAnalyzerFunc ["http://203.0.113.5/verify-login", "https://bit.ly/xyz"] =
      { totalUrls := 2
        highRiskUrls := 0
        mediumRiskUrls := 2
        lowRiskUrls := 0
        results :=
          [⟨"http://203.0.113.5/verify-login", "203.0.113.5", .medium,
            ["使用 IP 地址而非域名", "包含常見釣魚關鍵字"],
            "域名: 203.0.113.5, 路徑: /verify-login, 可疑特徵數: 2"⟩,
           ⟨"https://bit.ly/xyz", "bit.ly", .medium,
            ["使用 URL 縮短服務"],
            "域名: bit.ly, 路徑: /xyz, 可疑特徵數: 1"⟩] } ∧
    (∀ url u, parseUrl url = some u →
      (analyzeSingleUrl url).riskLevel =
        riskFromFeatureCount (analyzeSingleUrl url).suspiciousFeatures.length) ∧
    (∀ n, riskFromFeatureCount n = .high ↔ 2 < n) ∧
    (∀ url, parseUrl url = none →
      analyzeSingleUrl url =
        ⟨url, "invalid", .high, ["無效的 URL 格式"], "URL 格式無效: 未知錯誤"⟩) := by
  refine ⟨by decide, ?_, ?_, ?_⟩
  · intro url u hp
    simp only [analyzeSingleUrl, hp]
  · intro n
    unfold riskFromFeatureCount
    split_ifs with h1 h2 <;> simp_all
  · intro url hp
    simp only [analyzeSingleUrl, hp]

/-- C5: `validateRiskLevel` maps
`"low", "LOW", "低", "medium", "高"` to `low, low, low, medium, high`
(case-insensitive exact match with localized substring fallback) and
rejects `"bogus"` as a validation failure. -/
theorem riskLevel_localized_mapping :
    validateRiskLevel (.str "low") = .ok .low ∧
    validateRiskLevel (.str "LOW") = .ok .low ∧
    validateRiskLevel (.str "低") = .ok .low ∧
    validateRiskLevel (.str "medium") = .ok .medium ∧
    validateRiskLevel (.str "高") = .ok .high ∧
    validateRiskLevel (.str "bogus") = .error "風險等級必須是 low、medium 或 high" := by
  refine ⟨by decide, by decide, by decide, by decide, by decide, by decide⟩

/-- C6 counterexample: the claim caps `suspiciousPoints` at 10 entries,
but a single string input is split on newlines **without** the cap:
an 11-line string yields 11 entries. -/
theorem suspiciousPoints_cap_counterexample :
    validateSuspiciousPoints (.str "a\nb\nc\nd\ne\nf\ng\nh\ni\nj\nk") =
      .ok ["a", "b", "c", "d", "e", "f", "g", "h", "i", "j", "k"] ∧
    ¬ (["a", "b", "c", "d", "e", "f", "g", "h", "i", "j", "k"] : List String).length ≤ 10 := by
  refine ⟨by decide, by decide⟩

/-- C6 (amended): a validated `suspiciousPoints` list is never empty;
**array** inputs are trimmed, filtered of empty strings and capped at 10,
with an empty outcome replaced by the single sentinel entry
`未發現明顯可疑點` ("no suspicious points found"); a single **string**
input is split on newlines and trimmed but **not** capped, so string
inputs can produce more than 10 entries. -/
theorem suspiciousPoints_shape :
    (∀ v l, validateSuspiciousPoints v = .ok l → l ≠ []) ∧
    (∀ xs l, validateSuspiciousPoints (.arr xs) = .ok l → l.length ≤ 10) ∧
    validateSuspiciousPoints (.arr []) = .ok ["未發現明顯可疑點"] ∧
    validateSuspiciousPoints (.str "a\nb\nc\nd\ne\nf\ng\nh\ni\nj\nk") =
      .ok ["a", "b", "c", "d", "e", "f", "g", "h", "i", "j", "k"] := by
  refine ⟨?_, ?_, by decide, by decide⟩
  · intro v l hv
    cases v with
    | str s =>
      simp only [validateSuspiciousPoints] at hv
      split at hv
      · cases hv
        rename_i hcond
        simpa using hcond
      · cases hv
        simp
    | arr xs =>
      simp only [validateSuspiciousPoints] at hv
      split at hv
      · cases hv
        simp
      · cases hv
        rename_i hcond
        exact hcond
    | null =>
      simp only [validateSuspiciousPoints] at hv
      exact Except.noConfusion hv
    | bool b =>
      simp only [validateSuspiciousPoints] at hv
      exact Except.noConfusion hv
    | num q =>
      simp only [validateSuspiciousPoints] at hv
      exact Except.noConfusion hv
    | obj f =>
      simp only [validateSuspiciousPoints] at hv
      exact Except.noConfusion hv
  · intro xs l hv
    simp only [validateSuspiciousPoints] at hv
    split at hv
    · cases hv
      decide
    · cases hv
      exact List.length_take_le 10 _

/-- C6 witness: the non-emptiness and array-cap facts applied at concrete
inputs. -/
theorem suspiciousPoints_shape_witness :
    (["未發現明顯可疑點"] : List String) ≠ [] ∧
    (["未發現明顯可疑點"] : List String).length ≤ 10 :=
  ⟨suspiciousPoints_shape.1 (.arr []) ["未發現明顯可疑點"] (by decide),
   suspiciousPoints_shape.2.1 [] ["未發現明顯可疑點"] (by decide)⟩

/-- C10: an empty or whitespace-only e-mail makes
`PhishingDetector.analyzeEmail` return `createErrorResult` — with
`isPhishing = false`, `confidenceScore = 0`, `riskLevel = low`, a
non-empty `suspiciousPoints` list and an explanation naming the error —
without invoking the model (invocation count 0, the continuation for the
non-empty case is never run). -/
theorem analyzeEmail_empty_guard (rest : Unit → PhishingDetectionResult × ℕ)
    (now email : String) (h : jsTrim email = "") :
    analyzeEmail rest now email = (createErrorResult now "郵件內容不能為空", 0) ∧
    (analyzeEmail rest now email).1.isPhishing = false ∧
    (analyzeEmail rest now email).1.confidenceScore = 0 ∧
    (analyzeEmail rest now email).1.riskLevel = .low ∧
    (analyzeEmail rest now email).1.suspiciousPoints = ["錯誤: 郵件內容不能為空"] ∧
    (analyzeEmail rest now email).1.suspiciousPoints ≠ [] ∧
    (analyzeEmail rest now email).1.explanation = "分析過程中發生錯誤: 郵件內容不能為空" ∧
    (analyzeEmail rest now email).2 = 0 := by
  have hguard : analyzeEmail rest now email = (createErrorResult now "郵件內容不能為空", 0) := by
    unfold analyzeEmail
    rw [if_pos (Or.inr h)]
  refine ⟨hguard, ?_, ?_, ?_, ?_, ?_, ?_, ?_⟩ <;> rw [hguard] <;> simp [createErrorResult]

/-- C10 witness: the guard applied at a whitespace-only e-mail, with a
continuation that would have reported a different result and one model
invocation had it been run. -/
theorem analyzeEmail_empty_guard_witness :
    analyzeEmail (fun _ => (technicalFallbackResult "T", 1)) "T" "   " =
      (createErrorResult "T" "郵件內容不能為空", 0) :=
  (analyzeEmail_empty_guard (fun _ => (technicalFallbackResult "T", 1)) "T" "   "
    (by decide)).1

/-- C2 counterexample: on plain prose with no JSON,
`PhishingAnalysisWorkflow.parseResult` does return the medium-risk
fallback without throwing, but that fallback sets **no** `isError` flag,
so the claimed `isError=true` is false.  (The detector-side path that
does produce an error result uses `riskLevel: 'low'`, so no path yields
`isError=true` together with `riskLevel="medium"`.) -/
theorem parseResult_prose_counterexample :
    parseResult failingParseEnv "2024-01-01T00:00:00.000Z" "這不是 JSON 格式的回應" =
      parseFallbackResult "2024-01-01T00:00:00.000Z" ∧
    (parseResult failingParseEnv "2024-01-01T00:00:00.000Z" "這不是 JSON 格式的回應").isError
      ≠ some true ∧
    (parseResult failingParseEnv "2024-01-01T00:00:00.000Z" "這不是 JSON 格式的回應").isError
      = none := by
  refine ⟨by decide, by decide, by decide⟩

/-- C2 (amended): when the direct parse layer fails and the extracted
brace block (if any) also fails to parse, `parseResult` returns the
conservative fallback — `isPhishing=true`, `confidenceScore=50`,
`riskLevel="medium"`, a non-empty explanation — and never lets a parse
exception propagate; the fallback leaves `isError` unset rather than
setting it to `true`. -/
theorem parseResult_prose_fallback (env : ParseEnv) (now content : String)
    (h1 : env.jsonOutputParse content = none)
    (h2 : ∀ js, extractBraces content = some js → env.jsonParse js = none) :
    parseResult env now content = parseFallbackResult now ∧
    (parseResult env now content).riskLevel = .medium ∧
    (parseResult env now content).explanation ≠ "" ∧
    (parseResult env now content).isPhishing = true ∧
    (parseResult env now content).confidenceScore = 50 ∧
    (parseResult env now content).isError = none := by
  have hmain : parseResult env now content = parseFallbackResult now := by
    unfold parseResult
    rw [h1]
    cases hb : extractBraces content with
    | none => rfl
    | some js => simp only [h2 js hb]
  refine ⟨hmain, by rw [hmain]; rfl, by rw [hmain]; simp [parseFallbackResult],
    by rw [hmain]; rfl, by rw [hmain]; rfl, by rw [hmain]; rfl⟩

/-- C2 witness: the fallback behaviour at a concrete prose answer. -/
theorem parseResult_prose_fallback_witness :
    parseResult failingParseEnv "T" "純文字回覆" = parseFallbackResult "T" ∧
    (parseResult failingParseEnv "T" "純文字回覆").riskLevel = .medium ∧
    (parseResult failingParseEnv "T" "純文字回覆").explanation ≠ "" ∧
    (parseResult failingParseEnv "T" "純文字回覆").isPhishing = true ∧
    (parseResult failingParseEnv "T" "純文字回覆").confidenceScore = 50 ∧
    (parseResult failingParseEnv "T" "純文字回覆").isError = none :=
  parseResult_prose_fallback failingParseEnv "T" "純文字回覆" rfl (fun _ _ => rfl)

/-- C8: the `tool_calling` step never aborts the run: it is a total
function that executes every requested call in request order, appends
exactly one tool-role ledger message per call, converts an unknown tool
name or a thrown tool error into an error payload inside that message,
and always advances to `continue_analysis`. -/
theorem toolCalling_never_aborts (env : WEnv) (s : WState) :
    (toolCallingNode env s).currentStep = .continue_analysis ∧
    (toolCallingNode env s).messages =
      s.messages ++ (lastToolCalls s.messages).map (toolCallMessage env) ∧
    (toolCallingNode env s).messages.length =
      s.messages.length + (lastToolCalls s.messages).length ∧
    (∀ tc : ToolCall, env.tools.lookup tc.name = none →
      toolCallMessage env tc = .tool ("工具 " ++ tc.name ++ " 不存在") (tc.id.getD tc.name)) ∧
    (∀ tc f msg, env.tools.lookup tc.name = some f → f tc.args = .error msg →
      toolCallMessage env tc =
        .tool ("工具 " ++ tc.name ++ " 執行失敗: " ++ msg) (tc.id.getD tc.name)) ∧
    (∀ m ∈ (lastToolCalls s.messages).map (toolCallMessage env), ∃ c i, m = .tool c i) := by
  refine ⟨rfl, rfl, ?_, ?_, ?_, ?_⟩
  · simp [toolCallingNode]
  · intro tc h
    simp only [toolCallMessage, h]
  · intro tc f msg hf herr
    simp only [toolCallMessage, toolInvokeMessage, hf, herr]
  · intro m hm
    rw [List.mem_map] at hm
    obtain ⟨tc, _, rfl⟩ := hm
    cases h : env.tools.lookup tc.name with
    | none =>
      exact ⟨"工具 " ++ tc.name ++ " 不存在", tc.id.getD tc.name,
        by simp only [toolCallMessage, h]⟩
    | some f =>
      cases hr : f tc.args with
      | ok r =>
        exact ⟨r, tc.id.getD tc.name,
          by simp only [toolCallMessage, toolInvokeMessage, h, hr]⟩
      | error msg =>
        exact ⟨"工具 " ++ tc.name ++ " 執行失敗: " ++ msg, tc.id.getD tc.name,
          by simp only [toolCallMessage, toolInvokeMessage, h, hr]⟩

/-- C8 witness: an unknown tool requested against the empty registry is
turned into the structured not-found payload. -/
theorem toolCalling_never_aborts_witness :
    toolCallMessage proseModelEnv ⟨"domain_checker", "args", none⟩ =
      .tool ("工具 " ++ "domain_checker" ++ " 不存在")
        ((none : Option String).getD "domain_checker") :=
  (toolCalling_never_aborts proseModelEnv (initialWState "mail" true)).2.2.2.1
    ⟨"domain_checker", "args", none⟩ rfl

/-- C9: `ModelFactory.validateConfig` returns `valid=true` only if the
provider is supported, the model id and api key are non-empty, the key
matches the provider shape (`sk-` prefix for openai, `sk-ant-` prefix for
anthropic, length ≥ 10 for google) and the temperature lies in `[0,2]`;
and whenever it returns `valid=false` it carries a reason. -/
theorem validateConfig_necessary_conditions (config : ModelConfig) :
    ((validateConfig config).valid = true →
      config.provider ∈ supportedProviders ∧
      config.model ≠ "" ∧
      config.apiKey ≠ "" ∧
      (config.provider = "openai" → jsStartsWith config.apiKey "sk-" = true) ∧
      (config.provider = "anthropic" → jsStartsWith config.apiKey "sk-ant-" = true) ∧
      (config.provider = "google" → 10 ≤ config.apiKey.toList.length) ∧
      0 ≤ config.temperature ∧ config.temperature ≤ 2) ∧
    ((validateConfig config).valid = false → (validateConfig config).error ≠ none) := by
  unfold validateConfig
  split_ifs with h1 h2 h3 h4 h5
  · exact ⟨fun hh => absurd hh (by simp), fun _ => by simp⟩
  · exact ⟨fun hh => absurd hh (by simp), fun _ => by simp⟩
  · exact ⟨fun hh => absurd hh (by simp), fun _ => by simp⟩
  · exact ⟨fun hh => absurd hh (by simp), fun _ => by simp⟩
  · have hmodel : config.model ≠ "" := (not_or.mp h2).1
    have hkey : config.apiKey ≠ "" := (not_or.mp h3).1
    have htemp := not_or.mp h4
    refine ⟨?_, ?_⟩
    · intro hv
      have hfmt := (validateApiKeyFormat_valid_iff config.provider config.apiKey).mp hv
      exact ⟨h5, hmodel, hkey, hfmt.1, hfmt.2.1, hfmt.2.2,
        not_lt.mp htemp.1, not_lt.mp htemp.2⟩
    · intro hv
      exact validateApiKeyFormat_error_of_invalid config.provider config.apiKey hv
  · exact ⟨fun hh => absurd hh (by simp), fun _ => by simp⟩

/-- C9 witness: a well-formed openai configuration satisfies every
necessary condition. -/
theorem validateConfig_necessary_conditions_witness :
    ("openai" : String) ∈ supportedProviders ∧
    ("gpt-4o-mini" : String) ≠ "" ∧
    ("sk-abc" : String) ≠ "" ∧
    (("openai" : String) = "openai" → jsStartsWith "sk-abc" "sk-" = true) ∧
    (("openai" : String) = "anthropic" → jsStartsWith "sk-abc" "sk-ant-" = true) ∧
    (("openai" : String) = "google" → 10 ≤ ("sk-abc" : String).toList.length) ∧
    (0 : ℚ) ≤ 1 ∧ (1 : ℚ) ≤ 2 :=
  (validateConfig_necessary_conditions ⟨"openai", "gpt-4o-mini", 1, "sk-abc"⟩).1 (by decide)

/-! ## Workflow-run evaluation lemmas -/

theorem runGraphAux_done (env : WEnv) (g : Bool) (fuel : ℕ) (s : WState) (k : ℕ)
    (vis : List GNode) : runGraphAux env g fuel .done s k vis = ⟨s, k, vis⟩ := by
  cases fuel <;> rfl

theorem initialAnalysisNode_with_toolCalls (env : WEnv) (s : WState) (k : ℕ)
    (hu : s.useTools = true) (h : (env.respond k).toolCalls ≠ []) :
    initialAnalysisNode env s k =
      ({ s with
          messages := [WMessage.system PHISHING_DETECTION_SYSTEM_PROMPT,
              WMessage.human (generateAnalysisPrompt s.emailContent)] ++
            [.ai (env.respond k).content (env.respond k).toolCalls]
          currentStep := .tool_calling
          currentStepDescription :=
            some ("正在執行 " ++ toString (env.respond k).toolCalls.length ++ " 個分析工具")
          toolCallCount := s.toolCallCount + 1 }, k + 1) := by
  simp only [initialAnalysisNode]
  rw [if_pos ⟨hu, h⟩]

theorem initialAnalysisNode_completed (env : WEnv) (s : WState) (k : ℕ)
    (h : ¬(s.useTools = true ∧ (env.respond k).toolCalls ≠ [])) :
    initialAnalysisNode env s k =
      ({ s with
          messages := [WMessage.system PHISHING_DETECTION_SYSTEM_PROMPT,
              WMessage.human (generateAnalysisPrompt s.emailContent)] ++
            [.ai (env.respond k).content (env.respond k).toolCalls]
          finalResult := some (parseResult env.parseEnv env.now (env.respond k).content)
          currentStep := .completed
          currentStepDescription := some "分析完成" }, k + 1) := by
  simp only [initialAnalysisNode]
  rw [if_neg h]

theorem continueAnalysisNode_with_toolCalls (env : WEnv) (s : WState) (k : ℕ)
    (h : (env.respond k).toolCalls ≠ []) :
    continueAnalysisNode env s k =
      ({ s with
          messages := (s.messages ++ [WMessage.human (continuePromptText s.toolResults)]) ++
            [.ai (env.respond k).content (env.respond k).toolCalls]
          currentStep := .tool_calling
          currentStepDescription :=
            some ("正在執行額外的 " ++ toString (env.respond k).toolCalls.length ++ " 個分析工具")
          toolCallCount := s.toolCallCount + 1 }, k + 1) := by
  simp only [continueAnalysisNode]
  rw [if_pos h]

theorem finalAnalysisNode_completed (env : WEnv) (s : WState) (k : ℕ) :
    (finalAnalysisNode env s k).1.currentStep = .completed ∧
    (finalAnalysisNode env s k).2 ≤ k + 1 ∧
    (finalAnalysisNode env s k).1.toolCallCount = s.toolCallCount := by
  unfold finalAnalysisNode
  by_cases ht : s.toolResults = []
  · rw [if_pos ht]
    cases lastAiContent s.messages with
    | none => exact ⟨rfl, Nat.le_succ k, rfl⟩
    | some c => exact ⟨rfl, Nat.le_succ k, rfl⟩
  · rw [if_neg ht]
    exact ⟨rfl, Nat.le_refl (k + 1), rfl⟩

theorem finalAnalysisNode_no_results (env : WEnv) (s : WState) (k : ℕ) (c : String)
    (ht : s.toolResults = []) (ha : lastAiContent s.messages = some c) :
    finalAnalysisNode env s k =
      ({ s with
          finalResult := some (parseResult env.parseEnv env.now c)
          currentStep := .completed
          currentStepDescription := some "分析完成" }, k) := by
  simp only [finalAnalysisNode]
  rw [if_pos ht]
  simp only [ha]

theorem shouldContinue_false_of_cap (s : WState) (hc : 5 ≤ s.toolCallCount) :
    shouldContinueWithTools s = false := by
  unfold shouldContinueWithTools
  rw [if_pos hc]

theorem shouldContinue_true_of_toolcalls (s : WState) (hc : s.toolCallCount < 5)
    (ht : lastToolCalls s.messages ≠ []) :
    shouldContinueWithTools s = true := by
  unfold shouldContinueWithTools
  rw [if_neg (by omega)]
  rw [if_pos (by rw [isEmpty_false_of_ne_nil ht]; rfl)]

/-- The tool-loop measure argument: entering `tool_calling` with
`toolCallCount + m = 5` (for a model that always requests tools), the run
ends `completed` with the counter at the cap, using at most `m + 1`
further model invocations. -/
theorem runGraph_loop (env : WEnv) (h : ∀ n, (env.respond n).toolCalls ≠ []) :
    ∀ m : ℕ, 1 ≤ m → ∀ (fuel : ℕ) (s : WState) (k : ℕ) (vis : List GNode),
      s.toolCallCount + m = 5 → 2 * m + 2 ≤ fuel →
      (runGraphAux env true fuel .tools s k vis).state.currentStep = .completed ∧
      (runGraphAux env true fuel .tools s k vis).invocations ≤ k + m + 1 ∧
      (runGraphAux env true fuel .tools s k vis).state.toolCallCount = 5 := by
  intro m
  induction m with
  | zero => intro h1; exact absurd h1 (by omega)
  | succ m ih =>
    intro _ fuel s k vis hcount hfuel
    obtain ⟨f1, rfl⟩ : ∃ f1, fuel = f1 + 1 := ⟨fuel - 1, by omega⟩
    have step1 : runGraphAux env true (f1 + 1) .tools s k vis =
        runGraphAux env true f1 .continueA (toolCallingNode env s) k (vis ++ [.tools]) := rfl
    rw [step1]
    obtain ⟨f2, rfl⟩ : ∃ f2, f1 = f2 + 1 := ⟨f1 - 1, by omega⟩
    have step2 : runGraphAux env true (f2 + 1) .continueA (toolCallingNode env s) k
          (vis ++ [.tools]) =
        runGraphAux env true f2
          (routeAfter true .continueA (continueAnalysisNode env (toolCallingNode env s) k).1)
          (continueAnalysisNode env (toolCallingNode env s) k).1
          (continueAnalysisNode env (toolCallingNode env s) k).2
          (vis ++ [.tools] ++ [.continueA]) := rfl
    rw [step2]
    obtain ⟨s2, heq1, heq2, hcount2, hlast2⟩ :
        ∃ s2 : WState,
          (continueAnalysisNode env (toolCallingNode env s) k).1 = s2 ∧
          (continueAnalysisNode env (toolCallingNode env s) k).2 = k + 1 ∧
          s2.toolCallCount = s.toolCallCount + 1 ∧
          lastToolCalls s2.messages = (env.respond k).toolCalls := by
      rw [continueAnalysisNode_with_toolCalls env (toolCallingNode env s) k (h k)]
      exact ⟨_, rfl, rfl, rfl, lastToolCalls_concat _ _ _⟩
    rw [heq1, heq2]
    rcases Nat.eq_zero_or_pos m with hm | hm
    · subst hm
      have hroute : routeAfter true .continueA s2 = .final := by
        have hc := shouldContinue_false_of_cap s2 (by omega)
        simp [routeAfter, hc]
      rw [hroute]
      obtain ⟨f3, rfl⟩ : ∃ f3, f2 = f3 + 1 := ⟨f2 - 1, by omega⟩
      have step3 : runGraphAux env true (f3 + 1) .final s2 (k + 1)
            (vis ++ [.tools] ++ [.continueA]) =
          runGraphAux env true f3 .done (finalAnalysisNode env s2 (k + 1)).1
            (finalAnalysisNode env s2 (k + 1)).2
            (vis ++ [.tools] ++ [.continueA] ++ [.final]) := rfl
      rw [step3, runGraphAux_done]
      have hfin := finalAnalysisNode_completed env s2 (k + 1)
      refine ⟨hfin.1, ?_, ?_⟩
      · show (finalAnalysisNode env s2 (k + 1)).2 ≤ k + (0 + 1) + 1
        have := hfin.2.1
        omega
      · show (finalAnalysisNode env s2 (k + 1)).1.toolCallCount = 5
        rw [hfin.2.2]
        omega
    · have hroute : routeAfter true .continueA s2 = .tools := by
        have hc := shouldContinue_true_of_toolcalls s2 (by omega)
          (by rw [hlast2]; exact h k)
        simp [routeAfter, hc]
      rw [hroute]
      have hrec := ih hm f2 s2 (k + 1) (vis ++ [.tools] ++ [.continueA])
        (by omega) (by omega)
      refine ⟨hrec.1, ?_, hrec.2.2⟩
      have := hrec.2.1
      omega

/-- C1: for every model that requests at least one tool call on every
invocation, the orchestrator (tools enabled) still reaches the terminal
`completed` state, within `roundCap + 2 = 7` model invocations; the round
counter ends at its hard ceiling 5, and at or above the ceiling
`shouldContinueWithTools` decides `finish_analysis` regardless of any
further tool requests. -/
theorem roundCap_forces_completion (env : WEnv) (email : String)
    (h : ∀ n, (env.respond n).toolCalls ≠ []) :
    (analyzeWorkflow env true email true).state.currentStep = .completed ∧
    (analyzeWorkflow env true email true).invocations ≤ 7 ∧
    (analyzeWorkflow env true email true).state.toolCallCount = 5 ∧
    (∀ s : WState, 5 ≤ s.toolCallCount → shouldContinueWithTools s = false) := by
  have step0 : analyzeWorkflow env true email true =
      runGraphAux env true 19
        (routeAfter true .initial (initialAnalysisNode env (initialWState email true) 0).1)
        (initialAnalysisNode env (initialWState email true) 0).1
        (initialAnalysisNode env (initialWState email true) 0).2 [.initial] := rfl
  rw [step0]
  obtain ⟨s1, heq1, heq2, hcount1, hlast1, huse1⟩ :
      ∃ s1 : WState,
        (initialAnalysisNode env (initialWState email true) 0).1 = s1 ∧
        (initialAnalysisNode env (initialWState email true) 0).2 = 1 ∧
        s1.toolCallCount = 1 ∧
        lastToolCalls s1.messages = (env.respond 0).toolCalls ∧
        s1.useTools = true := by
    rw [initialAnalysisNode_with_toolCalls env (initialWState email true) 0 rfl (h 0)]
    exact ⟨_, rfl, rfl, rfl, lastToolCalls_concat _ _ _, rfl⟩
  rw [heq1, heq2]
  have hroute : routeAfter true .initial s1 = .tools := by
    have hsu : shouldUseTool s1 = true := by
      unfold shouldUseTool
      rw [huse1, hlast1, isEmpty_false_of_ne_nil (h 0)]
      rfl
    simp [routeAfter, hsu]
  rw [hroute]
  have hloop := runGraph_loop env h 4 (by omega) 19 s1 1 [.initial] (by omega) (by omega)
  exact ⟨hloop.1, by have := hloop.2.1; omega, hloop.2.2,
    fun s hs => shouldContinue_false_of_cap s hs⟩

/-- C1 witness: a concrete always-greedy model reaches `completed` within
7 invocations with the counter at the cap. -/
theorem roundCap_forces_completion_witness :
    (analyzeWorkflow greedyToolModelEnv true "測試郵件" true).state.currentStep = .completed ∧
    (analyzeWorkflow greedyToolModelEnv true "測試郵件" true).invocations ≤ 7 ∧
    (analyzeWorkflow greedyToolModelEnv true "測試郵件" true).state.toolCallCount = 5 ∧
    (∀ s : WState, 5 ≤ s.toolCallCount → shouldContinueWithTools s = false) :=
  roundCap_forces_completion greedyToolModelEnv "測試郵件"
    (fun _ => List.cons_ne_nil _ _)

/-- C7 counterexample: with tools enabled and a model response carrying
zero tool calls, the run does reach `completed` after exactly one model
invocation, but it passes through the `final_analysis` node on the way
(the graph has no direct `initial_analysis → END` edge when tools are
enabled), so "no final_analysis step is entered" is false. -/
theorem zero_toolcalls_final_entered_counterexample :
    (analyzeWorkflow proseModelEnv true "測試郵件" true).visited = [.initial, .final] ∧
    GNode.final ∈ (analyzeWorkflow proseModelEnv true "測試郵件" true).visited ∧
    (analyzeWorkflow proseModelEnv true "測試郵件" true).invocations = 1 ∧
    (analyzeWorkflow proseModelEnv true "測試郵件" true).state.currentStep = .completed := by
  refine ⟨by decide, by decide, by decide, by decide⟩

/-- C7 (amended): a model response to the initial analysis with zero tool
calls is parsed directly and the run reaches `completed` after exactly one
model invocation.  With tools disabled the graph goes straight to the end
(only `initial_analysis` executes); with tools enabled the graph passes
through `final_analysis`, which performs **no** further model invocation
and re-parses the initial answer (degenerate path), so the invocation
count is still exactly 1. -/
theorem zero_toolcalls_one_invocation (env : WEnv) (email : String)
    (h : (env.respond 0).toolCalls = []) :
    ((analyzeWorkflow env true email true).invocations = 1 ∧
     (analyzeWorkflow env true email true).state.currentStep = .completed ∧
     (analyzeWorkflow env true email true).visited = [.initial, .final]) ∧
    ((analyzeWorkflow env false email false).invocations = 1 ∧
     (analyzeWorkflow env false email false).state.currentStep = .completed ∧
     (analyzeWorkflow env false email false).visited = [.initial]) := by
  constructor
  · have step0 : analyzeWorkflow env true email true =
        runGraphAux env true 19
          (routeAfter true .initial (initialAnalysisNode env (initialWState email true) 0).1)
          (initialAnalysisNode env (initialWState email true) 0).1
          (initialAnalysisNode env (initialWState email true) 0).2 [.initial] := rfl
    rw [step0]
    obtain ⟨s1, heq1, heq2, hres1, hlast1, hai1⟩ :
        ∃ s1 : WState,
          (initialAnalysisNode env (initialWState email true) 0).1 = s1 ∧
          (initialAnalysisNode env (initialWState email true) 0).2 = 1 ∧
          s1.toolResults = [] ∧
          lastToolCalls s1.messages = (env.respond 0).toolCalls ∧
          lastAiContent s1.messages = some (env.respond 0).content := by
      rw [initialAnalysisNode_completed env (initialWState email true) 0
        (by rintro ⟨-, hne⟩; exact hne h)]
      exact ⟨_, rfl, rfl, rfl, lastToolCalls_concat _ _ _, lastAiContent_concat _ _ _⟩
    rw [heq1, heq2]
    have hroute : routeAfter true .initial s1 = .final := by
      have hsu : shouldUseTool s1 = false := by
        unfold shouldUseTool
        rw [hlast1, h]
        simp
      simp [routeAfter, hsu]
    rw [hroute]
    have step1 : runGraphAux env true 19 .final s1 1 [.initial] =
        runGraphAux env true 18 .done (finalAnalysisNode env s1 1).1
          (finalAnalysisNode env s1 1).2 ([.initial] ++ [.final]) := rfl
    rw [step1, runGraphAux_done]
    rw [finalAnalysisNode_no_results env s1 1 (env.respond 0).content hres1 hai1]
    exact ⟨rfl, rfl, rfl⟩
  · have step0 : analyzeWorkflow env false email false =
        runGraphAux env false 19
          (routeAfter false .initial (initialAnalysisNode env (initialWState email false) 0).1)
          (initialAnalysisNode env (initialWState email false) 0).1
          (initialAnalysisNode env (initialWState email false) 0).2 [.initial] := rfl
    rw [step0]
    obtain ⟨s1, heq1, heq2, hstep1⟩ :
        ∃ s1 : WState,
          (initialAnalysisNode env (initialWState email false) 0).1 = s1 ∧
          (initialAnalysisNode env (initialWState email false) 0).2 = 1 ∧
          s1.currentStep = .completed := by
      rw [initialAnalysisNode_completed env (initialWState email false) 0
        (by rintro ⟨hu, -⟩; exact Bool.noConfusion hu)]
      exact ⟨_, rfl, rfl, rfl⟩
    rw [heq1, heq2]
    have hroute : routeAfter false .initial s1 = .done := rfl
    rw [hroute, runGraphAux_done]
    exact ⟨rfl, hstep1, rfl⟩

/-- C7 witness: the amended behaviour at a concrete prose-only model. -/
theorem zero_toolcalls_one_invocation_witness :
    ((analyzeWorkflow proseModelEnv true "信件" true).invocations = 1 ∧
     (analyzeWorkflow proseModelEnv true "信件" true).state.currentStep = .completed ∧
     (analyzeWorkflow proseModelEnv true "信件" true).visited = [.initial, .final]) ∧
    ((analyzeWorkflow proseModelEnv false "信件" false).invocations = 1 ∧
     (analyzeWorkflow proseModelEnv false "信件" false).state.currentStep = .completed ∧
     (analyzeWorkflow proseModelEnv false "信件" false).visited = [.initial]) :=
  zero_toolcalls_one_invocation proseModelEnv "信件" rfl

end PhishDetect
